import Mathlib

/-!
Verification development for the ForecastGPT financial-outlook pipeline
(`app/agent.py`, `app/tools/financial_extractor.py`, `app/tools/market_data.py`,
`app/tools/qualitative_rag.py`).

The Python code is shallowly embedded: JSON values become an inductive type
(objects are association lists in insertion order, mirroring Python's ordered
dicts), Python strings become `List Char`/`String` (slicing and stripping are
code-point based, as in Python), and every external effect (PDF reads, the
regex engine used for metric patterns, the FAISS/Ollama retrieval subsystem,
the Yahoo quote endpoint, the chat model) is an oracle supplied through the
`Oracles` record.  Fallible Python calls are `Except`/`Option` valued; an
exception that the Python code does not catch surfaces as `Except.error`.
-/

/-- Characters that cannot appear as Lean literals are named constants:
the backtick used by markdown fences and the braces used by JSON. -/
def btChar : Char := Char.ofNat 96

/-- Opening brace character. -/
def lbraceChar : Char := Char.ofNat 123

/-- Closing brace character. -/
def rbraceChar : Char := Char.ofNat 125

/-- JSON whitespace accepted by `json.loads` between tokens. -/
def isJsonWs (c : Char) : Bool :=
  c == ' ' || c == '\t' || c == '\n' || c == '\x0d'

/-- Whitespace removed by Python's `str.strip()` (the common ASCII cases). -/
def isPyWs (c : Char) : Bool :=
  c == ' ' || c == '\t' || c == '\n' || c == '\x0d' || c == '\x0b' || c == '\x0c'

/-- Left strip, as in Python `s.lstrip()`. -/
def lstrip (l : List Char) : List Char := l.dropWhile isPyWs

/-- Right strip, as in Python `s.rstrip()`. -/
def rstrip (l : List Char) : List Char := (l.reverse.dropWhile isPyWs).reverse

/-- Python `s.strip()`: remove whitespace from both ends. -/
def pythonStrip (l : List Char) : List Char := lstrip (rstrip l)

/-- Python slicing `s[:n]` on a string (first `n` code points). -/
def pyTake (n : Nat) (s : String) : String := String.mk (s.data.take n)

/-- Python slicing `s[-n:]` on a string (last `n` code points). -/
def pyTail (n : Nat) (s : String) : String :=
  String.mk (s.data.drop (s.data.length - n))

/-- JSON values.  Objects are association lists in insertion order, which is
how CPython dicts behave; numbers keep their source text (the pipeline never
computes with them). -/
inductive Json where
  | null : Json
  | bool : Bool → Json
  | num : String → Json
  | str : String → Json
  | arr : List Json → Json
  | obj : List (String × Json) → Json
deriving Repr

/-- True exactly on JSON objects (Python `isinstance(x, dict)`). -/
def Json.isObj : Json → Bool
  | .obj _ => true
  | _ => false

/-- Association-list lookup: the value of the first pair with the given key,
i.e. Python `d[k]` / `d.get(k)` on dicts (keys are unique in dicts). -/
def lookupA : List (String × Json) → String → Option Json
  | [], _ => none
  | p :: rest, k => if p.1 == k then some p.2 else lookupA rest k

/-- Python dict assignment `d[k] = v`: update the value in place when the key
exists (keeping its position), otherwise append the pair at the end. -/
def dictSet (kvs : List (String × Json)) (k : String) (v : Json) :
    List (String × Json) :=
  if kvs.any (fun p => p.1 == k) then
    kvs.map (fun p => if p.1 == k then (k, v) else p)
  else kvs ++ [(k, v)]

/-- Python `d.setdefault(k, v)`: insert `v` under `k` only when `k` is absent. -/
def setdefault (kvs : List (String × Json)) (k : String) (v : Json) :
    List (String × Json) :=
  if kvs.any (fun p => p.1 == k) then kvs else kvs ++ [(k, v)]

/-- Lookup of a key on a JSON value; non-objects hold no keys. -/
def jlookup (k : String) : Json → Option Json
  | .obj kvs => lookupA kvs k
  | _ => none

/-!  A recursive-descent model of `json.loads`.  It follows the stdlib
decoder: skip whitespace, parse one value, require only whitespace after it.
The numeric grammar is slightly looser than the stdlib's (the literal text of
a maximal run of number characters is kept verbatim), which only widens the
set of accepted inputs; every claim is stated against this model. -/

/-- Decimal/hex digit value of a character, if any. -/
def hexVal (c : Char) : Option Nat :=
  if '0' ≤ c && c ≤ '9' then some (c.toNat - 48)
  else if 'a' ≤ c && c ≤ 'f' then some (c.toNat - 87)
  else if 'A' ≤ c && c ≤ 'F' then some (c.toNat - 55)
  else none

/-- Parse the body of a JSON string literal after the opening quote, handling
the escape sequences of RFC 8259; returns the decoded string and the rest. -/
def parseStringBody : List Char → Option (String × List Char)
  | [] => none
  | '\\' :: esc =>
    match esc with
    | '"' :: rest => (parseStringBody rest).map (fun p => ("\"" ++ p.1, p.2))
    | '\\' :: rest => (parseStringBody rest).map (fun p => ("\\" ++ p.1, p.2))
    | '/' :: rest => (parseStringBody rest).map (fun p => ("/" ++ p.1, p.2))
    | 'b' :: rest =>
      (parseStringBody rest).map (fun p => (String.mk [Char.ofNat 8] ++ p.1, p.2))
    | 'f' :: rest =>
      (parseStringBody rest).map (fun p => (String.mk [Char.ofNat 12] ++ p.1, p.2))
    | 'n' :: rest => (parseStringBody rest).map (fun p => ("\n" ++ p.1, p.2))
    | 'r' :: rest => (parseStringBody rest).map (fun p => ("\x0d" ++ p.1, p.2))
    | 't' :: rest => (parseStringBody rest).map (fun p => ("\t" ++ p.1, p.2))
    | 'u' :: a :: b :: c :: d :: rest =>
      match hexVal a, hexVal b, hexVal c, hexVal d with
      | some x, some y, some z, some w =>
        (parseStringBody rest).map (fun p =>
          (String.mk [Char.ofNat (((x * 16 + y) * 16 + z) * 16 + w)] ++ p.1, p.2))
      | _, _, _, _ => none
    | _ => none
  | c :: rest =>
    if c = '"' then some ("", rest)
    else (parseStringBody rest).map (fun p => (String.mk [c] ++ p.1, p.2))

/-- Characters that may occur in a JSON number literal. -/
def numChar (c : Char) : Bool :=
  c.isDigit || c == '-' || c == '+' || c == '.' || c == 'e' || c == 'E'

/-- Parse a number as its maximal run of number characters, kept verbatim. -/
def parseNumber (l : List Char) : Option (Json × List Char) :=
  let digits := l.takeWhile numChar
  if digits.isEmpty then none
  else some (Json.num (String.mk digits), l.dropWhile numChar)

/-- Skip JSON inter-token whitespace. -/
def skipJsonWs (l : List Char) : List Char := l.dropWhile isJsonWs

mutual

/-- Parse one JSON value (fuelled recursion; the fuel only bounds nesting and
member counts, and callers supply more fuel than any input can consume). -/
def parseValue : Nat → List Char → Option (Json × List Char)
  | 0, _ => none
  | fuel + 1, l =>
    match skipJsonWs l with
    | [] => none
    | c :: rest =>
      if c = '"' then (parseStringBody rest).map (fun p => (Json.str p.1, p.2))
      else if c = lbraceChar then parseObjectBody fuel (skipJsonWs rest)
      else if c = '[' then parseArrayBody fuel (skipJsonWs rest)
      else if c = 't' then
        match rest with
        | 'r' :: 'u' :: 'e' :: r => some (Json.bool true, r)
        | _ => none
      else if c = 'f' then
        match rest with
        | 'a' :: 'l' :: 's' :: 'e' :: r => some (Json.bool false, r)
        | _ => none
      else if c = 'n' then
        match rest with
        | 'u' :: 'l' :: 'l' :: r => some (Json.null, r)
        | _ => none
      else if c.isDigit || c = '-' then parseNumber (c :: rest)
      else none

/-- Parse an object body after the opening brace and whitespace. -/
def parseObjectBody : Nat → List Char → Option (Json × List Char)
  | 0, _ => none
  | fuel + 1, l =>
    match l with
    | [] => none
    | c :: rest =>
      if c = rbraceChar then some (Json.obj [], rest)
      else parseMembers fuel [] (c :: rest)

/-- Parse the members of an object; duplicate keys overwrite in place, as in
CPython's dict construction. -/
def parseMembers : Nat → List (String × Json) → List Char →
    Option (Json × List Char)
  | 0, _, _ => none
  | fuel + 1, acc, l =>
    match l with
    | [] => none
    | c :: rest =>
      if c = '"' then
        match parseStringBody rest with
        | none => none
        | some (k, r1) =>
          match skipJsonWs r1 with
          | [] => none
          | c2 :: r2 =>
            if c2 = ':' then
              match parseValue fuel r2 with
              | none => none
              | some (v, r3) =>
                let acc' := dictSet acc k v
                match skipJsonWs r3 with
                | [] => none
                | c3 :: r4 =>
                  if c3 = ',' then parseMembers fuel acc' (skipJsonWs r4)
                  else if c3 = rbraceChar then some (Json.obj acc', r4)
                  else none
            else none
      else none

/-- Parse an array body after the opening bracket and whitespace. -/
def parseArrayBody : Nat → List Char → Option (Json × List Char)
  | 0, _ => none
  | fuel + 1, l =>
    match l with
    | [] => none
    | c :: rest =>
      if c = ']' then some (Json.arr [], rest)
      else parseElems fuel [] (c :: rest)

/-- Parse the elements of an array. -/
def parseElems : Nat → List Json → List Char → Option (Json × List Char)
  | 0, _, _ => none
  | fuel + 1, acc, l =>
    match parseValue fuel l with
    | none => none
    | some (v, r) =>
      match skipJsonWs r with
      | [] => none
      | c :: r2 =>
        if c = ',' then parseElems fuel (acc ++ [v]) r2
        else if c = ']' then some (Json.arr (acc ++ [v]), r2)
        else none

end

/-- Model of `json.loads` on character lists: strip the ends, parse one value,
and require that nothing but whitespace follows it. -/
def jsonLoadsL (l : List Char) : Option Json :=
  let y := pythonStrip l
  match parseValue (2 * y.length + 4) y with
  | some (v, rem) => if (skipJsonWs rem).isEmpty then some v else none
  | none => none

/-- Model of `json.loads` on strings. -/
def jsonLoads (s : String) : Option Json := jsonLoadsL s.data

/-!  The loose JSON recovery of `agent._parse_json_loose`:
strip, undo one markdown fence, try a direct parse, then try the substring
from the first opening brace to the last closing brace.  Any Python exception
on this path is caught by the caller, so the model returns `Option`. -/

/-- Whether a list begins with three backticks (the fence marker). -/
def startsTriple (l : List Char) : Bool :=
  match l with
  | a :: b :: c :: _ => a == btChar && b == btChar && c == btChar
  | _ => false

/-- Whether three consecutive backticks occur anywhere in the list. -/
def hasTriple : List Char → Bool
  | [] => false
  | c :: cs => startsTriple (c :: cs) || hasTriple cs

/-- Lazy search for the closing fence: the shortest prefix that is followed
by three backticks, as matched by the non-greedy group in the regex
sequence backtick backtick backtick (json)? (.*?) backtick backtick backtick. -/
def lazyClose : List Char → Option (List Char)
  | [] => none
  | c :: cs =>
    if startsTriple (c :: cs) then some []
    else (lazyClose cs).map (fun g => c :: g)

/-- Whether the list starts with the tag `json` in any letter case
(the regex is compiled with `IGNORECASE`). -/
def startsJsonCI (l : List Char) : Bool :=
  match l with
  | a :: b :: c :: d :: _ =>
    (a == 'j' || a == 'J') && (b == 's' || b == 'S') &&
    (c == 'o' || c == 'O') && (d == 'n' || d == 'N')
  | _ => false

/-- Try to match the fence regex with the match anchored at the head of the
list: three backticks, an optional (greedy, backtrackable) `json` tag, then
the lazy group up to the next three backticks.  Returns the group text. -/
def matchFenceAt (l : List Char) : Option (List Char) :=
  match l with
  | a :: b :: c :: rest =>
    if a == btChar && b == btChar && c == btChar then
      if startsJsonCI rest then
        match lazyClose (rest.drop 4) with
        | some g => some g
        | none => lazyClose rest
      else lazyClose rest
    else none
  | _ => none

/-- `re.search` for the fence pattern: the leftmost position at which the
whole pattern matches wins. -/
def fenceSearch : List Char → Option (List Char)
  | [] => none
  | c :: cs =>
    match matchFenceAt (c :: cs) with
    | some g => some g
    | none => fenceSearch cs

/-- Greedy `re.search` for a brace-delimited block with `DOTALL`: from the
first opening brace to the last closing brace, provided the latter comes
after the former. -/
def braceExtract (l : List Char) : Option (List Char) :=
  match l.findIdx? (fun c => c == lbraceChar),
        l.reverse.findIdx? (fun c => c == rbraceChar) with
  | some i, some jr =>
    let j := l.length - 1 - jr
    if i < j then some ((l.drop i).take (j - i + 1)) else none
  | _, _ => none

/-- `agent._parse_json_loose` on character lists; `none` models the function
raising (either its own `ValueError` or a decode error from the brace path),
which `ForecastAgent.run` catches. -/
def parseJsonLooseL (l : List Char) : Option Json :=
  let text := pythonStrip l
  let text :=
    match fenceSearch text with
    | some g => pythonStrip g
    | none => text
  match jsonLoadsL text with
  | some v => some v
  | none =>
    match braceExtract text with
    | some sub => jsonLoadsL sub
    | none => none

/-- `agent._parse_json_loose` on strings. -/
def parseJsonLoose (s : String) : Option Json := parseJsonLooseL s.data

/-!  A model of `json.dumps(v, indent=2, ensure_ascii=False)`, used by the
prompt assembler.  No claim depends on the exact rendering, but the prompt
string is built with it, faithfully to the stdlib's indented layout. -/

/-- Lower-case hexadecimal digit. -/
def hexDigit (n : Nat) : Char :=
  if n < 10 then Char.ofNat (48 + n) else Char.ofNat (87 + n)

/-- Escape one character as `json.dumps` does (with `ensure_ascii=False`). -/
def escapeChar (c : Char) : String :=
  if c = '"' then "\\\""
  else if c = '\\' then "\\\\"
  else if c = '\n' then "\\n"
  else if c = '\t' then "\\t"
  else if c = '\x0d' then "\\r"
  else if c = Char.ofNat 8 then "\\b"
  else if c = Char.ofNat 12 then "\\f"
  else if c.toNat < 32 then
    String.mk ['\\', 'u', '0', '0', hexDigit (c.toNat / 16), hexDigit (c.toNat % 16)]
  else String.mk [c]

/-- Quote a string as a JSON string literal. -/
def jsonQuote (s : String) : String :=
  "\"" ++ String.join (s.data.map escapeChar) ++ "\""

/-- Indentation prefix at nesting depth `n` with `indent=2`. -/
def indentStr (n : Nat) : String := String.mk (List.replicate (2 * n) ' ')

mutual

/-- Serialize one value at the given nesting depth. -/
def dumpsV : Nat → Json → String
  | _, Json.null => "null"
  | _, Json.bool true => "true"
  | _, Json.bool false => "false"
  | _, Json.num s => s
  | _, Json.str s => jsonQuote s
  | _, Json.arr [] => "[]"
  | lvl, Json.arr (x :: xs) =>
    "[\n" ++ dumpsArrItems (lvl + 1) (x :: xs) ++ "\n" ++ indentStr lvl ++ "]"
  | _, Json.obj [] => "\x7b\x7d"
  | lvl, Json.obj (kv :: kvs) =>
    "\x7b\n" ++ dumpsObjItems (lvl + 1) (kv :: kvs) ++ "\n" ++ indentStr lvl ++ "\x7d"

/-- Serialize array elements, one per line, comma separated. -/
def dumpsArrItems : Nat → List Json → String
  | _, [] => ""
  | lvl, [x] => indentStr lvl ++ dumpsV lvl x
  | lvl, x :: y :: xs =>
    indentStr lvl ++ dumpsV lvl x ++ ",\n" ++ dumpsArrItems lvl (y :: xs)

/-- Serialize object members, one per line, comma separated. -/
def dumpsObjItems : Nat → List (String × Json) → String
  | _, [] => ""
  | lvl, [kv] => indentStr lvl ++ jsonQuote kv.1 ++ ": " ++ dumpsV lvl kv.2
  | lvl, kv :: kv2 :: kvs =>
    indentStr lvl ++ jsonQuote kv.1 ++ ": " ++ dumpsV lvl kv.2 ++ ",\n" ++
      dumpsObjItems lvl (kv2 :: kvs)

end

/-- `json.dumps(v, indent=2, ensure_ascii=False)`. -/
def pyDumps (v : Json) : String := dumpsV 0 v

/-!  The pipeline.  External effects are oracles: `readPdf` models
`pdfplumber` text extraction for one path (`Except.error` = the read raised),
`reSearch` models `re.search(pattern, text, re.I)` returning group 1,
`ragThemes` models building the FAISS index over the given transcripts and
querying the six fixed themes (`Except.error` = anything in that subsystem
raised), `quote` models the Yahoo Finance request/JSON access (`Except.ok p` =
the optional `regularMarketPrice` field), and `llm` models
`self.llm.invoke(messages).content` for the assembled user prompt. -/

structure Oracles where
  readPdf : String → Except String String
  reSearch : String → String → Option String
  ragThemes : List String → List String → Except String Json
  quote : Except String (Option Json)
  llm : String → Except String String

/-- Candidate patterns for each metric, from `financial_extractor.py`. -/
def revenuePatterns : List String :=
  ["total\\s+revenue[^₹]\x7b0,20\x7d₹\\s*([\\d,]+\\.?\\d*)\\s*crore",
   "revenue[^₹]\x7b0,20\x7d₹\\s*([\\d,]+\\.?\\d*)\\s*crore"]

/-- Candidate patterns for the net-profit metric. -/
def netProfitPatterns : List String :=
  ["net\\s+profit[^₹]\x7b0,20\x7d₹\\s*([\\d,]+\\.?\\d*)\\s*crore",
   "profit\\s+after\\s+tax[^₹]\x7b0,20\x7d₹\\s*([\\d,]+\\.?\\d*)\\s*crore"]

/-- Candidate patterns for the operating-margin metric. -/
def marginPatterns : List String :=
  ["operating\\s+margin[^\\d]\x7b0,10\x7d([\\d.]+)\\s*%",
   "ebit\\s+margin[^\\d]\x7b0,10\x7d([\\d.]+)\\s*%"]

/-- `financial_extractor._find`: first pattern that matches wins. -/
def findFirst (o : Oracles) : List String → String → Option String
  | [], _ => none
  | pat :: rest, text =>
    match o.reSearch pat text with
    | some g => some g
    | none => findFirst o rest text

/-- Lift an optional matched string to JSON (`None` serializes as `null`). -/
def optStr : Option String → Json
  | some s => Json.str s
  | none => Json.null

/-- The per-document metrics mapping built from one document's text. -/
def metricsOf (o : Oracles) (text : String) : Json :=
  Json.obj
    [("total_revenue_inr_cr", optStr (findFirst o revenuePatterns text)),
     ("net_profit_inr_cr", optStr (findFirst o netProfitPatterns text)),
     ("operating_margin_pct", optStr (findFirst o marginPatterns text))]

/-- `financial_extractor.extract_financial_metrics`: read each document
(skipping, with a log, any whose read raises), extract the three metrics, and
flag trend comparability only when at least two documents were read. -/
def extract_financial_metrics (o : Oracles) (pdf_paths : List String) : Json :=
  let docPairs : List (String × Json) :=
    pdf_paths.filterMap (fun p =>
      match o.readPdf p with
      | .ok text => some (p, metricsOf o text)
      | .error _ => none)
  let docs : List Json :=
    docPairs.map (fun pm => Json.obj [("path", Json.str pm.1), ("metrics", pm.2)])
  let trend : List (String × Json) :=
    [("docs_analyzed", Json.arr (docPairs.map (fun pm => Json.str pm.1)))] ++
    (if 2 ≤ docPairs.length then
      [("revenue_direction", Json.str "compare latest vs previous"),
       ("margin_direction", Json.str "compare latest vs previous")]
     else [])
  Json.obj [("documents", Json.arr docs), ("trend_summary", Json.obj trend)]

/-- `market_data.fetch_tcs_stock_price`: its whole body is a try/except that
returns the quote mapping on success and the empty mapping on any failure. -/
def fetch_tcs_stock_price (quote : Except String (Option Json)) : Json :=
  match quote with
  | .ok price =>
    Json.obj [("symbol", Json.str "TCS.NS"),
              ("price_inr", price.getD Json.null)]
  | .error _ => Json.obj []

/-- Abstract FAISS index behaviour: `similarity_search` returning the page
contents of the k nearest chunks for a query. -/
def VDBSearch : Type := String → Nat → List String

/-- `qualitative_rag.QualitativeAnalysisTool`: only the `vdb` field matters
to the pipeline's logic (`None` until `build_index` succeeds). -/
structure QualitativeAnalysisTool where
  vdb : Option VDBSearch

/-- `QualitativeAnalysisTool.query_themes`: an un-built index yields the
empty mapping; otherwise one retrieval per query, in query order. -/
def QualitativeAnalysisTool.query_themes (tool : QualitativeAnalysisTool)
    (queries : List String) (k : Nat := 5) : Json :=
  match tool.vdb with
  | none => Json.obj []
  | some db =>
    Json.obj (queries.foldl
      (fun out q => dictSet out q (Json.arr ((db q k).map Json.str))) [])

/-- `agent._compress_themes`: pass non-dicts through; per topic keep the
first `max_snippets_per_topic` snippets, truncated to
`max_chars_per_snippet` characters, and drop topics left with no snippet. -/
def compressThemes (themes : Json) (max_snippets_per_topic : Nat := 2)
    (max_chars_per_snippet : Nat := 400) : Json :=
  match themes with
  | Json.obj kvs =>
    Json.obj (kvs.filterMap (fun tv =>
      match tv.2 with
      | Json.arr snippets =>
        let trimmed := (snippets.take max_snippets_per_topic).filterMap
          (fun sn =>
            match sn with
            | Json.str s => some (Json.str (pyTake max_chars_per_snippet s))
            | _ => none)
        if trimmed.isEmpty then none else some (tv.1, Json.arr trimmed)
      | _ => none))
  | t => t

/-- The six fixed analytical queries issued by `ForecastAgent.run`. -/
def ragQueries : List String :=
  ["revenue growth drivers and headwinds",
   "margin outlook and cost pressures",
   "deal pipeline and demand commentary",
   "AI and GenAI opportunities and use-cases",
   "client spend behaviour and macro commentary",
   "key risks highlighted by management"]

/-- Step 2 of `ForecastAgent.run`: the themes value.  An empty transcript
list short-circuits to the no-transcript sentinel without touching the
retrieval subsystem; any retrieval failure degrades to the failed sentinel. -/
def themesOf (o : Oracles) (transcripts : List String) : Json :=
  if transcripts.isEmpty then
    Json.arr [Json.str "No transcript provided by user."]
  else
    match o.ragThemes transcripts ragQueries with
    | .ok raw_themes => compressThemes raw_themes
    | .error _ =>
      Json.arr [Json.str "Transcript analysis failed; proceeding with financials only."]

/-- The prompt character ceiling (`agent.MAX_PROMPT_CHARS`). -/
def MAX_PROMPT_CHARS : Nat := 10000

/-- The `user_parts` list of `ForecastAgent.run`, in source order. -/
def userParts (query : String) (fin themes market : Json) : List String :=
  ["Task: " ++ query,
   "",
   "Structured financial metrics extracted from quarterly financial statements (already parsed for you):",
   pyDumps fin,
   "",
   "Key management commentary snippets from earnings call transcripts, grouped by analytical theme:",
   pyDumps themes,
   "",
   "Optional market context for the TCS stock (can be empty):",
   pyDumps market,
   "",
   "Now, using ONLY the information above and following the schema from the system prompt, produce the final JSON forecast object."]

/-- The final character-level safeguard of `ForecastAgent.run`: keep only
the tail of an over-long prompt. -/
def truncOf (user_prompt : String) : String :=
  if MAX_PROMPT_CHARS < user_prompt.length then pyTail MAX_PROMPT_CHARS user_prompt
  else user_prompt

/-- The user prompt handed to the model: the joined parts, truncated to the
trailing `MAX_PROMPT_CHARS` characters when too long. -/
def finalPrompt (query : String) (fin themes market : Json) : String :=
  truncOf (String.intercalate "\n" (userParts query fin themes market))

/-- The exact prompt `ForecastAgent.run` sends for the given inputs. -/
def runPrompt (o : Oracles) (query : String)
    (financial_pdfs transcripts : List String) : String :=
  finalPrompt query (extract_financial_metrics o financial_pdfs)
    (themesOf o transcripts) (fetch_tcs_stock_price o.quote)

/-- Python truthiness for the JSON values that can reach `themes if themes
else []` (empty containers and the empty string are falsy; the numeric case
approximates CPython for literal zeros and never arises in the pipeline). -/
def pyTruthy : Json → Bool
  | Json.null => false
  | Json.bool b => b
  | Json.num s => !(s == "0" || s == "0.0" || s == "-0")
  | Json.str s => !s.isEmpty
  | Json.arr l => !l.isEmpty
  | Json.obj l => !l.isEmpty

/-- The fallback payload returned when `_parse_json_loose` raises
(`agent.py` lines 225-246), verbatim from the source. -/
def fallbackResult (themes : Json) (financial_pdfs transcripts : List String)
    (market : Json) : Json :=
  Json.obj
    [("company", Json.str "TCS"),
     ("period_analyzed", Json.arr []),
     ("financial_trends", Json.obj
       [("revenue", Json.str "unclear"),
        ("net_profit", Json.str "unclear"),
        ("operating_margin", Json.str "unclear")]),
     ("management_themes", if pyTruthy themes then themes else Json.arr []),
     ("risks", Json.arr [Json.str "Model output invalid JSON"]),
     ("opportunities", Json.arr []),
     ("qualitative_forecast_next_quarter", Json.str ""),
     ("confidence", Json.obj
       [("level", Json.str "low"),
        ("reasons", Json.arr [Json.str "Invalid JSON from model"])]),
     ("sources", Json.obj
       [("financial_docs", Json.arr (financial_pdfs.map Json.str)),
        ("transcripts", Json.arr (transcripts.map Json.str))]),
     ("market_context", market)]

/-- The required top-level keys of a `ForecastResult`. -/
def requiredTopLevelKeys : List String :=
  ["company", "period_analyzed", "financial_trends", "management_themes",
   "risks", "opportunities", "qualitative_forecast_next_quarter",
   "confidence", "sources", "market_context"]

/-- The no-transcript sentinel themes value. -/
def noTranscriptSentinel : Json :=
  Json.arr [Json.str "No transcript provided by user."]

/-- The placeholder inserted for a missing `financial_trends` key. -/
def defaultTrends : Json :=
  Json.obj
    [("revenue", Json.str "unclear"),
     ("net_profit", Json.str "unclear"),
     ("operating_margin", Json.str "unclear")]

/-- The placeholder inserted for a missing `confidence` key. -/
def defaultConfidence : Json :=
  Json.obj
    [("level", Json.str "low"),
     ("reasons", Json.arr [Json.str "Missing confidence from model"])]

/-- The `sources` mapping the pipeline always attaches. -/
def sourcesObj (financial_pdfs transcripts : List String) : Json :=
  Json.obj
    [("financial_docs", Json.arr (financial_pdfs.map Json.str)),
     ("transcripts", Json.arr (transcripts.map Json.str))]

/-- The key-backfilling and overwriting applied to a successfully parsed
object (`agent.py` lines 249-277): `setdefault` for each required top-level
key, then unconditional assignment of `sources` and `market_context`. -/
def normalizeParsed (kvs : List (String × Json))
    (financial_pdfs transcripts : List String) (market : Json) : Json :=
  let p := setdefault kvs "company" (Json.str "TCS")
  let p := setdefault p "period_analyzed" (Json.arr [])
  let p := setdefault p "financial_trends" defaultTrends
  let p := setdefault p "management_themes" (Json.arr [])
  let p := setdefault p "risks" (Json.arr [])
  let p := setdefault p "opportunities" (Json.arr [])
  let p := setdefault p "qualitative_forecast_next_quarter" (Json.str "")
  let p := setdefault p "confidence" defaultConfidence
  let p := dictSet p "sources" (sourcesObj financial_pdfs transcripts)
  let p := dictSet p "market_context" market
  Json.obj p

/-- `ForecastAgent.run`.  The stages run in source order; the result is
`Except.error` exactly where the Python method lets an exception escape: the
un-guarded `self.llm.invoke` call, and the `parsed.setdefault` calls when the
loose parse produced a non-dict JSON value (an `AttributeError`). -/
def ForecastAgent.run (o : Oracles) (query : String)
    (financial_pdfs transcripts : List String) : Except String Json :=
  let themes := themesOf o transcripts
  let market := fetch_tcs_stock_price o.quote
  match o.llm (runPrompt o query financial_pdfs transcripts) with
  | .error e => .error e
  | .ok raw =>
    match parseJsonLoose raw with
    | none => .ok (fallbackResult themes financial_pdfs transcripts market)
    | some (Json.obj kvs) =>
      .ok (normalizeParsed kvs financial_pdfs transcripts market)
    | some _ => .error "AttributeError: object has no attribute setdefault"

/-- The text a successful read yields for a path (irrelevant default for
paths whose read fails; only used beneath a success test). -/
def textOf (o : Oracles) (p : String) : String :=
  match o.readPdf p with
  | .ok text => text
  | .error _ => ""

/-- Separator-prefixed concatenation, the shape `str.join` produces after
its first element. -/
def joinParts (s : String) : List String → String
  | [] => ""
  | b :: bs => s ++ b ++ joinParts s bs

/-!  Concrete oracles and model outputs used as test inputs by witnesses and
counterexamples.  `oStub` is a worst-case environment: every external system
is down except the chat model, which returns a fixed text. -/

/-- Oracles in which every upstream system fails and the model replies with
the given raw text. -/
def oStub (raw : String) : Oracles :=
  { readPdf := fun _ => Except.error "unreadable",
    reSearch := fun _ _ => none,
    ragThemes := fun _ _ => Except.error "embedding service down",
    quote := Except.error "network unreachable",
    llm := fun _ => Except.ok raw }

/-- Oracles in which the chat-model invocation itself raises. -/
def oLlmDown : Oracles :=
  { oStub "" with llm := fun _ => Except.error "model offline" }

/-- A model reply whose `financial_trends` object is only partially filled. -/
def rawPartialTrends : String :=
  "\x7b\"financial_trends\": \x7b\"revenue\": \"up\"\x7d\x7d"

/-- A model reply that is plain prose with no JSON object in it. -/
def rawProse : String := "The outlook is positive overall."

/-- A JSON object whose only string value is a markdown fence marker. -/
def jsonWithFence : String := "\x7b\"a\": \"```\"\x7d"

/-!  Association-list lemmas used to reason about the normalization chain. -/

/-- Key membership as tested by `setdefault`/`dictSet` coincides with a
successful lookup. -/
theorem any_key_eq_isSome_lookup (kvs : List (String × Json)) (k : String) :
    kvs.any (fun p => p.1 == k) = (lookupA kvs k).isSome := by
  induction kvs with
  | nil => rfl
  | cons p rest ih =>
    by_cases h : p.1 == k
    · simp [lookupA, List.any_cons, h]
    · simp only [List.any_cons, lookupA, h]
      simpa using ih

/-- Looking up past a prefix that lacks the key. -/
theorem lookupA_append_of_none (kvs l : List (String × Json)) (k : String)
    (h : lookupA kvs k = none) : lookupA (kvs ++ l) k = lookupA l k := by
  induction kvs with
  | nil => rfl
  | cons p rest ih =>
    by_cases hp : p.1 == k
    · simp [lookupA, hp] at h
    · simp only [lookupA, hp, Bool.false_eq_true, if_false,
        List.cons_append] at h ⊢
      exact ih h

/-- Appending a differently-keyed pair does not change a lookup. -/
theorem lookupA_append_single_other (kvs : List (String × Json))
    (k k' : String) (v : Json) (h : k' ≠ k) :
    lookupA (kvs ++ [(k, v)]) k' = lookupA kvs k' := by
  induction kvs with
  | nil => simp [lookupA, beq_iff_eq, Ne.symm h]
  | cons p rest ih =>
    by_cases hp : p.1 == k'
    · simp [lookupA, hp]
    · simp only [List.cons_append, lookupA, hp, Bool.false_eq_true, if_false]
      exact ih

/-- Overwriting every pair with the key yields that value on lookup,
provided the key occurs. -/
theorem lookupA_overwrite_self (kvs : List (String × Json)) (k : String)
    (v : Json) (hmem : kvs.any (fun p => p.1 == k) = true) :
    lookupA (kvs.map (fun p => if p.1 == k then (k, v) else p)) k = some v := by
  induction kvs with
  | nil => simp at hmem
  | cons p rest ih =>
    simp only [List.map_cons]
    by_cases hp : p.1 == k
    · rw [if_pos hp]
      simp [lookupA]
    · rw [if_neg hp]
      simp only [lookupA, hp, Bool.false_eq_true, if_false]
      simp only [List.any_cons, hp, Bool.false_or] at hmem
      exact ih hmem

/-- Overwriting pairs with one key leaves lookups of other keys unchanged. -/
theorem lookupA_overwrite_other (kvs : List (String × Json)) (k k' : String)
    (v : Json) (h : k' ≠ k) :
    lookupA (kvs.map (fun p => if p.1 == k then (k, v) else p)) k'
      = lookupA kvs k' := by
  induction kvs with
  | nil => rfl
  | cons p rest ih =>
    simp only [List.map_cons]
    by_cases hp : p.1 == k
    · have hp' : p.1 = k := by simpa [beq_iff_eq] using hp
      rw [if_pos hp]
      simp only [lookupA]
      rw [if_neg (by simp [beq_iff_eq, Ne.symm h]),
        if_neg (by simp [beq_iff_eq, hp', Ne.symm h])]
      exact ih
    · rw [if_neg hp]
      simp only [lookupA]
      by_cases hpk' : p.1 == k'
      · simp [hpk']
      · rw [if_neg (by simpa using hpk'), if_neg (by simpa using hpk')]
        exact ih

/-- `setdefault` guarantees the key afterwards, keeping any old value. -/
theorem lookup_setdefault_self (kvs : List (String × Json)) (k : String)
    (v : Json) :
    lookupA (setdefault kvs k v) k = some ((lookupA kvs k).getD v) := by
  unfold setdefault
  rw [any_key_eq_isSome_lookup]
  cases h : lookupA kvs k with
  | some w => simp [h]
  | none =>
    simp only [h, Option.isSome_none, Bool.false_eq_true, if_false,
      Option.getD_none]
    rw [lookupA_append_of_none kvs _ _ h]
    simp [lookupA]

/-- `setdefault` does not disturb other keys. -/
theorem lookup_setdefault_other (kvs : List (String × Json)) (k k' : String)
    (v : Json) (h : k' ≠ k) :
    lookupA (setdefault kvs k v) k' = lookupA kvs k' := by
  unfold setdefault
  by_cases hmem : kvs.any (fun p => p.1 == k)
  · simp [hmem]
  · simp only [hmem, Bool.false_eq_true, if_false]
    exact lookupA_append_single_other kvs k k' v h

/-- `dictSet` stores the value under the key. -/
theorem lookup_dictSet_self (kvs : List (String × Json)) (k : String)
    (v : Json) : lookupA (dictSet kvs k v) k = some v := by
  unfold dictSet
  by_cases hmem : kvs.any (fun p => p.1 == k)
  · rw [if_pos hmem]
    exact lookupA_overwrite_self kvs k v hmem
  · rw [if_neg hmem]
    rw [any_key_eq_isSome_lookup] at hmem
    rw [lookupA_append_of_none kvs _ _ (by
      cases h : lookupA kvs k with
      | none => rfl
      | some w => rw [h] at hmem; simp at hmem)]
    simp [lookupA]

/-- `dictSet` does not disturb other keys. -/
theorem lookup_dictSet_other (kvs : List (String × Json)) (k k' : String)
    (v : Json) (h : k' ≠ k) :
    lookupA (dictSet kvs k v) k' = lookupA kvs k' := by
  unfold dictSet
  by_cases hmem : kvs.any (fun p => p.1 == k)
  · rw [if_pos hmem]
    exact lookupA_overwrite_other kvs k k' v h
  · rw [if_neg hmem]
    exact lookupA_append_single_other kvs k k' v h

/-!  Characterization of every required key after normalization.  Each lemma
peels the `dictSet`/`setdefault` chain of `normalizeParsed` down to the
parsed object's own entry for that key. -/

/-- Value of `company` after normalization. -/
theorem np_company (kvs : List (String × Json)) (f t : List String) (m : Json) :
    jlookup "company" (normalizeParsed kvs f t m)
      = some ((lookupA kvs "company").getD (Json.str "TCS")) := by
  simp only [normalizeParsed, jlookup]
  rw [lookup_dictSet_other _ _ _ _ (by decide),
      lookup_dictSet_other _ _ _ _ (by decide),
      lookup_setdefault_other _ _ _ _ (by decide),
      lookup_setdefault_other _ _ _ _ (by decide),
      lookup_setdefault_other _ _ _ _ (by decide),
      lookup_setdefault_other _ _ _ _ (by decide),
      lookup_setdefault_other _ _ _ _ (by decide),
      lookup_setdefault_other _ _ _ _ (by decide),
      lookup_setdefault_other _ _ _ _ (by decide),
      lookup_setdefault_self]

/-- Value of `period_analyzed` after normalization. -/
theorem np_period (kvs : List (String × Json)) (f t : List String) (m : Json) :
    jlookup "period_analyzed" (normalizeParsed kvs f t m)
      = some ((lookupA kvs "period_analyzed").getD (Json.arr [])) := by
  simp only [normalizeParsed, jlookup]
  rw [lookup_dictSet_other _ _ _ _ (by decide),
      lookup_dictSet_other _ _ _ _ (by decide),
      lookup_setdefault_other _ _ _ _ (by decide),
      lookup_setdefault_other _ _ _ _ (by decide),
      lookup_setdefault_other _ _ _ _ (by decide),
      lookup_setdefault_other _ _ _ _ (by decide),
      lookup_setdefault_other _ _ _ _ (by decide),
      lookup_setdefault_other _ _ _ _ (by decide),
      lookup_setdefault_self,
      lookup_setdefault_other _ _ _ _ (by decide)]

/-- Value of `financial_trends` after normalization. -/
theorem np_trends (kvs : List (String × Json)) (f t : List String) (m : Json) :
    jlookup "financial_trends" (normalizeParsed kvs f t m)
      = some ((lookupA kvs "financial_trends").getD defaultTrends) := by
  simp only [normalizeParsed, jlookup]
  rw [lookup_dictSet_other _ _ _ _ (by decide),
      lookup_dictSet_other _ _ _ _ (by decide),
      lookup_setdefault_other _ _ _ _ (by decide),
      lookup_setdefault_other _ _ _ _ (by decide),
      lookup_setdefault_other _ _ _ _ (by decide),
      lookup_setdefault_other _ _ _ _ (by decide),
      lookup_setdefault_other _ _ _ _ (by decide),
      lookup_setdefault_self,
      lookup_setdefault_other _ _ _ _ (by decide),
      lookup_setdefault_other _ _ _ _ (by decide)]

/-- Value of `management_themes` after normalization. -/
theorem np_mgmt (kvs : List (String × Json)) (f t : List String) (m : Json) :
    jlookup "management_themes" (normalizeParsed kvs f t m)
      = some ((lookupA kvs "management_themes").getD (Json.arr [])) := by
  simp only [normalizeParsed, jlookup]
  rw [lookup_dictSet_other _ _ _ _ (by decide),
      lookup_dictSet_other _ _ _ _ (by decide),
      lookup_setdefault_other _ _ _ _ (by decide),
      lookup_setdefault_other _ _ _ _ (by decide),
      lookup_setdefault_other _ _ _ _ (by decide),
      lookup_setdefault_other _ _ _ _ (by decide),
      lookup_setdefault_self,
      lookup_setdefault_other _ _ _ _ (by decide),
      lookup_setdefault_other _ _ _ _ (by decide),
      lookup_setdefault_other _ _ _ _ (by decide)]

/-- Value of `risks` after normalization. -/
theorem np_risks (kvs : List (String × Json)) (f t : List String) (m : Json) :
    jlookup "risks" (normalizeParsed kvs f t m)
      = some ((lookupA kvs "risks").getD (Json.arr [])) := by
  simp only [normalizeParsed, jlookup]
  rw [lookup_dictSet_other _ _ _ _ (by decide),
      lookup_dictSet_other _ _ _ _ (by decide),
      lookup_setdefault_other _ _ _ _ (by decide),
      lookup_setdefault_other _ _ _ _ (by decide),
      lookup_setdefault_other _ _ _ _ (by decide),
      lookup_setdefault_self,
      lookup_setdefault_other _ _ _ _ (by decide),
      lookup_setdefault_other _ _ _ _ (by decide),
      lookup_setdefault_other _ _ _ _ (by decide),
      lookup_setdefault_other _ _ _ _ (by decide)]

/-- Value of `opportunities` after normalization. -/
theorem np_opps (kvs : List (String × Json)) (f t : List String) (m : Json) :
    jlookup "opportunities" (normalizeParsed kvs f t m)
      = some ((lookupA kvs "opportunities").getD (Json.arr [])) := by
  simp only [normalizeParsed, jlookup]
  rw [lookup_dictSet_other _ _ _ _ (by decide),
      lookup_dictSet_other _ _ _ _ (by decide),
      lookup_setdefault_other _ _ _ _ (by decide),
      lookup_setdefault_other _ _ _ _ (by decide),
      lookup_setdefault_self,
      lookup_setdefault_other _ _ _ _ (by decide),
      lookup_setdefault_other _ _ _ _ (by decide),
      lookup_setdefault_other _ _ _ _ (by decide),
      lookup_setdefault_other _ _ _ _ (by decide),
      lookup_setdefault_other _ _ _ _ (by decide)]

/-- Value of `qualitative_forecast_next_quarter` after normalization. -/
theorem np_qual (kvs : List (String × Json)) (f t : List String) (m : Json) :
    jlookup "qualitative_forecast_next_quarter" (normalizeParsed kvs f t m)
      = some ((lookupA kvs "qualitative_forecast_next_quarter").getD
          (Json.str "")) := by
  simp only [normalizeParsed, jlookup]
  rw [lookup_dictSet_other _ _ _ _ (by decide),
      lookup_dictSet_other _ _ _ _ (by decide),
      lookup_setdefault_other _ _ _ _ (by decide),
      lookup_setdefault_self,
      lookup_setdefault_other _ _ _ _ (by decide),
      lookup_setdefault_other _ _ _ _ (by decide),
      lookup_setdefault_other _ _ _ _ (by decide),
      lookup_setdefault_other _ _ _ _ (by decide),
      lookup_setdefault_other _ _ _ _ (by decide),
      lookup_setdefault_other _ _ _ _ (by decide)]

/-- Value of `confidence` after normalization. -/
theorem np_conf (kvs : List (String × Json)) (f t : List String) (m : Json) :
    jlookup "confidence" (normalizeParsed kvs f t m)
      = some ((lookupA kvs "confidence").getD defaultConfidence) := by
  simp only [normalizeParsed, jlookup]
  rw [lookup_dictSet_other _ _ _ _ (by decide),
      lookup_dictSet_other _ _ _ _ (by decide),
      lookup_setdefault_self,
      lookup_setdefault_other _ _ _ _ (by decide),
      lookup_setdefault_other _ _ _ _ (by decide),
      lookup_setdefault_other _ _ _ _ (by decide),
      lookup_setdefault_other _ _ _ _ (by decide),
      lookup_setdefault_other _ _ _ _ (by decide),
      lookup_setdefault_other _ _ _ _ (by decide),
      lookup_setdefault_other _ _ _ _ (by decide)]

/-- Value of `sources` after normalization: always pipeline-owned. -/
theorem np_sources (kvs : List (String × Json)) (f t : List String) (m : Json) :
    jlookup "sources" (normalizeParsed kvs f t m) = some (sourcesObj f t) := by
  simp only [normalizeParsed, jlookup]
  rw [lookup_dictSet_other _ _ _ _ (by decide), lookup_dictSet_self]

/-- Value of `market_context` after normalization: always pipeline-owned. -/
theorem np_market (kvs : List (String × Json)) (f t : List String) (m : Json) :
    jlookup "market_context" (normalizeParsed kvs f t m) = some m := by
  simp only [normalizeParsed, jlookup]
  rw [lookup_dictSet_self]

/-- Claim C10: querying themes on an instance whose index was never built
returns the empty mapping rather than raising, and the empty mapping passes
through the compressor unchanged, contributing no passages to the prompt. -/
theorem claim_C10_unbuilt_index_empty (queries : List String) (k n m : Nat) :
    QualitativeAnalysisTool.query_themes ⟨none⟩ queries k = Json.obj []
      ∧ compressThemes (Json.obj []) n m = Json.obj [] := by
  exact ⟨rfl, rfl⟩

/-- Witness for C10 at a concrete query list. -/
theorem claim_C10_witness :
    QualitativeAnalysisTool.query_themes ⟨none⟩ ["margin outlook"] 5
        = Json.obj []
      ∧ compressThemes (Json.obj []) 2 400 = Json.obj [] :=
  claim_C10_unbuilt_index_empty ["margin outlook"] 5 2 400

/-- Claim C3: whenever `ForecastAgent.run` returns a result object — whether
the model output parsed to a JSON object (possibly with its own `sources` or
`market_context` entries) or failed to parse — the result's `sources` field
is exactly the pipeline's mapping of the input document paths and its
`market_context` field is exactly the pipeline-fetched market mapping;
model-supplied values for those keys are discarded, never merged. -/
theorem claim_C3_sources_market_pipeline_owned (o : Oracles) (q : String)
    (f t : List String) (j : Json)
    (h : ForecastAgent.run o q f t = Except.ok j) :
    jlookup "sources" j = some (sourcesObj f t)
      ∧ jlookup "market_context" j = some (fetch_tcs_stock_price o.quote) := by
  cases hll : o.llm (runPrompt o q f t) with
  | error e =>
    simp only [ForecastAgent.run, hll] at h
    exact Except.noConfusion h
  | ok raw =>
    simp only [ForecastAgent.run, hll] at h
    cases hp : parseJsonLoose raw with
    | none =>
      simp only [hp, Except.ok.injEq] at h
      subst h
      exact ⟨rfl, rfl⟩
    | some v =>
      cases v with
      | obj kvs =>
        simp only [hp, Except.ok.injEq] at h
        subst h
        exact ⟨np_sources kvs f t _, np_market kvs f t _⟩
      | null => simp only [hp] at h; exact Except.noConfusion h
      | bool b => simp only [hp] at h; exact Except.noConfusion h
      | num s => simp only [hp] at h; exact Except.noConfusion h
      | str s => simp only [hp] at h; exact Except.noConfusion h
      | arr l => simp only [hp] at h; exact Except.noConfusion h

/-- Witness for C3: the partially-filled model reply under the all-failing
oracles still yields pipeline-owned `sources` and `market_context`. -/
theorem claim_C3_witness :
    jlookup "sources"
        (normalizeParsed [("financial_trends",
          Json.obj [("revenue", Json.str "up")])] [] [] (Json.obj []))
        = some (sourcesObj [] [])
      ∧ jlookup "market_context"
        (normalizeParsed [("financial_trends",
          Json.obj [("revenue", Json.str "up")])] [] [] (Json.obj []))
        = some (fetch_tcs_stock_price (oStub rawPartialTrends).quote) :=
  claim_C3_sources_market_pipeline_owned (oStub rawPartialTrends) "q" [] [] _
    (by rfl)

/-- Claim C2, counterexample: the claim that no exception propagates out of
`ForecastAgent.run` for any behaviour of the fallible stages is false — a
failing generative-model invocation is not guarded and raises to the caller. -/
theorem claim_C2_counterexample :
    ForecastAgent.run oLlmDown "q" [] [] = Except.error "model offline" := by
  rfl

/-- Claim C2 (amended): for every behaviour of the per-document reads, the
retrieval subsystem, the market fetch and the output parsing, `run` returns
a result object — provided the model invocation itself returns and its
output does not loose-parse to a non-object JSON value (those two cases
raise: the `invoke` call is unguarded, and `setdefault` on a non-dict is an
`AttributeError`). -/
theorem claim_C2_no_raise (o : Oracles) (q : String) (f t : List String)
    (raw : String) (hll : o.llm (runPrompt o q f t) = Except.ok raw)
    (hp : parseJsonLoose raw = none
      ∨ ∃ kvs, parseJsonLoose raw = some (Json.obj kvs)) :
    (ForecastAgent.run o q f t).isOk = true := by
  rcases hp with hp | ⟨kvs, hp⟩ <;>
    (simp only [ForecastAgent.run, hll, hp]; rfl)

/-- Witness for C2 at concrete failing oracles and an unparseable reply. -/
theorem claim_C2_witness :
    (ForecastAgent.run (oStub rawProse) "q" ["a.pdf"] ["t.pdf"]).isOk = true :=
  claim_C2_no_raise (oStub rawProse) "q" ["a.pdf"] ["t.pdf"] rawProse rfl
    (Or.inl (by rfl))

/-- Claim C4, counterexample: on a reply where every parse strategy fails the
fallback's `qualitative_forecast_next_quarter` is the empty string, not the
claimed explicit string `unclear`. -/
theorem claim_C4_counterexample :
    (ForecastAgent.run (oStub rawProse) "q" [] []).toOption.bind
        (jlookup "qualitative_forecast_next_quarter") = some (Json.str "")
      ∧ decide (("" : String) = "unclear") = false := by
  exact ⟨rfl, rfl⟩

/-- Claim C4 (amended): when every parse strategy fails on the model output,
`run` does not raise and returns the fallback object whose
`financial_trends` entries are all the explicit string `unclear`, whose
`qualitative_forecast_next_quarter` is the empty string, whose `risks` list
names the parsing failure, and whose `confidence.level` is `low`. -/
theorem claim_C4_parse_failure_fallback (o : Oracles) (q : String)
    (f t : List String) (raw : String)
    (hll : o.llm (runPrompt o q f t) = Except.ok raw)
    (hp : parseJsonLoose raw = none) :
    ForecastAgent.run o q f t
        = Except.ok (fallbackResult (themesOf o t) f t
            (fetch_tcs_stock_price o.quote))
      ∧ jlookup "financial_trends"
          (fallbackResult (themesOf o t) f t (fetch_tcs_stock_price o.quote))
          = some defaultTrends
      ∧ jlookup "qualitative_forecast_next_quarter"
          (fallbackResult (themesOf o t) f t (fetch_tcs_stock_price o.quote))
          = some (Json.str "")
      ∧ jlookup "risks"
          (fallbackResult (themesOf o t) f t (fetch_tcs_stock_price o.quote))
          = some (Json.arr [Json.str "Model output invalid JSON"])
      ∧ (jlookup "confidence"
          (fallbackResult (themesOf o t) f t
            (fetch_tcs_stock_price o.quote))).bind (jlookup "level")
          = some (Json.str "low") := by
  refine ⟨?_, rfl, rfl, rfl, rfl⟩
  simp only [ForecastAgent.run, hll, hp]

/-- Witness for C4 at a concrete prose reply. -/
theorem claim_C4_witness :
    ForecastAgent.run (oStub rawProse) "q" ["a.pdf"] []
        = Except.ok (fallbackResult (themesOf (oStub rawProse) []) ["a.pdf"] []
            (fetch_tcs_stock_price (oStub rawProse).quote))
      ∧ jlookup "financial_trends"
          (fallbackResult (themesOf (oStub rawProse) []) ["a.pdf"] []
            (fetch_tcs_stock_price (oStub rawProse).quote))
          = some defaultTrends
      ∧ jlookup "qualitative_forecast_next_quarter"
          (fallbackResult (themesOf (oStub rawProse) []) ["a.pdf"] []
            (fetch_tcs_stock_price (oStub rawProse).quote))
          = some (Json.str "")
      ∧ jlookup "risks"
          (fallbackResult (themesOf (oStub rawProse) []) ["a.pdf"] []
            (fetch_tcs_stock_price (oStub rawProse).quote))
          = some (Json.arr [Json.str "Model output invalid JSON"])
      ∧ (jlookup "confidence"
          (fallbackResult (themesOf (oStub rawProse) []) ["a.pdf"] []
            (fetch_tcs_stock_price (oStub rawProse).quote))).bind
          (jlookup "level") = some (Json.str "low") :=
  claim_C4_parse_failure_fallback (oStub rawProse) "q" ["a.pdf"] [] rawProse
    rfl (by rfl)

/-- Claim C1, counterexample: a model reply whose `financial_trends` object
is partially filled keeps only the supplied nested key; the missing nested
keys (`net_profit` here) are not backfilled, contradicting the claim. -/
theorem claim_C1_counterexample :
    ((ForecastAgent.run (oStub rawPartialTrends) "q" [] []).toOption.bind
        (jlookup "financial_trends")).bind (jlookup "revenue")
        = some (Json.str "up")
      ∧ ((ForecastAgent.run (oStub rawPartialTrends) "q" [] []).toOption.bind
        (jlookup "financial_trends")).bind (jlookup "net_profit") = none := by
  exact ⟨rfl, rfl⟩

/-- Claim C1 (amended): whenever `run` returns a result object, every
required top-level key is present; the nested keys of `financial_trends` and
`confidence` are guaranteed only when the model omitted that top-level key
entirely, in which case the fully-populated placeholder default is inserted —
a partially-filled nested object supplied by the model is kept as-is and its
missing nested keys are not backfilled, nor are value shapes validated. -/
theorem claim_C1_schema_completeness (o : Oracles) (q : String)
    (f t : List String) (j : Json) (raw : String)
    (kvs : List (String × Json))
    (hll : o.llm (runPrompt o q f t) = Except.ok raw)
    (hp : parseJsonLoose raw = some (Json.obj kvs))
    (h : ForecastAgent.run o q f t = Except.ok j) :
    (∀ key ∈ requiredTopLevelKeys, (jlookup key j).isSome = true)
      ∧ (lookupA kvs "financial_trends" = none →
          jlookup "financial_trends" j = some defaultTrends)
      ∧ (lookupA kvs "confidence" = none →
          jlookup "confidence" j = some defaultConfidence) := by
  simp only [ForecastAgent.run, hll, hp, Except.ok.injEq] at h
  subst h
  refine ⟨?_, ?_, ?_⟩
  · intro key hk
    simp only [requiredTopLevelKeys, List.mem_cons, List.mem_singleton] at hk
    rcases hk with rfl | rfl | rfl | rfl | rfl | rfl | rfl | rfl | rfl | rfl | hk
    · rw [np_company]; rfl
    · rw [np_period]; rfl
    · rw [np_trends]; rfl
    · rw [np_mgmt]; rfl
    · rw [np_risks]; rfl
    · rw [np_opps]; rfl
    · rw [np_qual]; rfl
    · rw [np_conf]; rfl
    · rw [np_sources]; rfl
    · rw [np_market]; rfl
    · exact absurd hk (List.not_mem_nil key)
  · intro habs
    rw [np_trends, habs]
    rfl
  · intro habs
    rw [np_conf, habs]
    rfl

/-- Witness for C1: the partially-filled reply leaves out `confidence`, so
the fully-populated confidence default is inserted, and the `company` key is
present. -/
theorem claim_C1_witness :
    (jlookup "company"
        (normalizeParsed [("financial_trends",
          Json.obj [("revenue", Json.str "up")])] [] [] (Json.obj []))).isSome
        = true
      ∧ jlookup "confidence"
        (normalizeParsed [("financial_trends",
          Json.obj [("revenue", Json.str "up")])] [] [] (Json.obj []))
        = some defaultConfidence :=
  ⟨(claim_C1_schema_completeness (oStub rawPartialTrends) "q" [] [] _
      rawPartialTrends _ rfl (by rfl) (by rfl)).1 "company"
      (by simp [requiredTopLevelKeys]),
   (claim_C1_schema_completeness (oStub rawPartialTrends) "q" [] [] _
      rawPartialTrends _ rfl (by rfl) (by rfl)).2.2 (by rfl)⟩

/-- Claim C7, counterexample: the clause that with an empty transcript list
the pipeline always completes and returns a result is false — when the model
invocation raises, `run` raises even though the transcripts were empty. -/
theorem claim_C7_counterexample :
    ForecastAgent.run oLlmDown "task" ["a.pdf"] []
      = Except.error "model offline" := by
  rfl

/-- Claim C7 (amended): with an empty transcript list the retrieval
subsystem is never invoked (the result does not depend on the retrieval
oracle), the themes value carried into prompt assembly and into the fallback
result's `management_themes` is the no-transcript sentinel, and the pipeline
completes with a result provided the model call returns and its output fails
to parse (completion for object-parsing outputs is Claim C2's theorem). -/
theorem claim_C7_empty_transcripts (o : Oracles)
    (x y : List String → List String → Except String Json) (q : String)
    (f : List String) (raw : String)
    (hll : o.llm (runPrompt o q f []) = Except.ok raw)
    (hp : parseJsonLoose raw = none) :
    ForecastAgent.run { o with ragThemes := x } q f []
        = ForecastAgent.run { o with ragThemes := y } q f []
      ∧ themesOf o [] = noTranscriptSentinel
      ∧ runPrompt o q f [] = finalPrompt q (extract_financial_metrics o f)
          noTranscriptSentinel (fetch_tcs_stock_price o.quote)
      ∧ ForecastAgent.run o q f []
          = Except.ok (fallbackResult noTranscriptSentinel f []
              (fetch_tcs_stock_price o.quote))
      ∧ jlookup "management_themes"
          (fallbackResult noTranscriptSentinel f []
            (fetch_tcs_stock_price o.quote)) = some noTranscriptSentinel := by
  refine ⟨rfl, rfl, rfl, ?_, rfl⟩
  simp only [ForecastAgent.run, runPrompt] at hll ⊢
  simp only [hll, hp]
  rfl

/-- Witness for C7 at concrete oracles with one financial document. -/
theorem claim_C7_witness :
    ForecastAgent.run { oStub rawProse with
          ragThemes := fun _ _ => Except.ok (Json.obj []) } "task" ["a.pdf"] []
        = ForecastAgent.run { oStub rawProse with
          ragThemes := fun _ _ => Except.error "down" } "task" ["a.pdf"] []
      ∧ themesOf (oStub rawProse) [] = noTranscriptSentinel
      ∧ runPrompt (oStub rawProse) "task" ["a.pdf"] []
          = finalPrompt "task"
              (extract_financial_metrics (oStub rawProse) ["a.pdf"])
              noTranscriptSentinel
              (fetch_tcs_stock_price (oStub rawProse).quote)
      ∧ ForecastAgent.run (oStub rawProse) "task" ["a.pdf"] []
          = Except.ok (fallbackResult noTranscriptSentinel ["a.pdf"] []
              (fetch_tcs_stock_price (oStub rawProse).quote))
      ∧ jlookup "management_themes"
          (fallbackResult noTranscriptSentinel ["a.pdf"] []
            (fetch_tcs_stock_price (oStub rawProse).quote))
          = some noTranscriptSentinel :=
  claim_C7_empty_transcripts (oStub rawProse)
    (fun _ _ => Except.ok (Json.obj [])) (fun _ _ => Except.error "down")
    "task" ["a.pdf"] rawProse rfl (by rfl)

/-!  Lemmas about joining and the prompt assembly. -/

/-- The worker of `String.intercalate` in closed form. -/
theorem intercalate_go_spec (s : String) (as : List String) (acc : String) :
    String.intercalate.go acc s as = acc ++ joinParts s as := by
  induction as generalizing acc with
  | nil => simp [String.intercalate.go, joinParts]
  | cons b bs ih =>
    rw [String.intercalate.go, ih, joinParts]
    simp [String.append_assoc]

/-- `String.intercalate` in closed form on a non-empty list. -/
theorem intercalate_spec (s a : String) (as : List String) :
    String.intercalate s (a :: as) = a ++ joinParts s as := by
  rw [String.intercalate, intercalate_go_spec]

/-- String concatenation acts as list concatenation on the character data. -/
theorem data_append (a b : String) : (a ++ b).data = a.data ++ b.data := by
  cases a; cases b; rfl

/-- Claim C8: the extracted metric set lists exactly the successfully-read
documents, in input order, with per-document metrics that depend only on
that document's own text; the trend-summary carries `docs_analyzed` of the
same paths and the two direction flags exactly when at least two documents
were read. -/
theorem claim_C8_extractor_partial_failure (o : Oracles)
    (paths : List String) :
    extract_financial_metrics o paths
      = Json.obj
          [("documents", Json.arr
            ((paths.filter (fun p => (o.readPdf p).isOk)).map
              (fun p => Json.obj
                [("path", Json.str p),
                 ("metrics", metricsOf o (textOf o p))]))),
           ("trend_summary", Json.obj
            ([("docs_analyzed", Json.arr
               ((paths.filter (fun p => (o.readPdf p).isOk)).map Json.str))] ++
             (if 2 ≤ (paths.filter (fun p => (o.readPdf p).isOk)).length then
               [("revenue_direction", Json.str "compare latest vs previous"),
                ("margin_direction", Json.str "compare latest vs previous")]
              else [])))] := by
  have hpairs :
      paths.filterMap (fun p =>
        match o.readPdf p with
        | .ok text => some (p, metricsOf o text)
        | .error _ => none)
      = (paths.filter (fun p => (o.readPdf p).isOk)).map
          (fun p => (p, metricsOf o (textOf o p))) := by
    induction paths with
    | nil => rfl
    | cons p rest ih =>
      cases hr : o.readPdf p with
      | ok text =>
        rw [List.filter_cons_of_pos (by simp only [hr]; rfl), List.map_cons,
          List.filterMap_cons]
        simp only [hr]
        have ht : textOf o p = text := by simp only [textOf, hr]
        rw [ht, ih]
      | error e =>
        rw [List.filter_cons_of_neg (by simp only [hr]; exact Bool.false_ne_true),
          List.filterMap_cons]
        simp only [hr]
        exact ih
  simp only [extract_financial_metrics, hpairs, List.map_map, List.length_map]
  rfl

/-- Character data of a trailing slice. -/
theorem pyTail_data (n : Nat) (s : String) :
    (pyTail n s).data = s.data.drop (s.data.length - n) := rfl

/-- Length of a trailing slice. -/
theorem pyTail_length (n : Nat) (s : String) :
    (pyTail n s).length = s.data.length - (s.data.length - n) := by
  rw [pyTail]
  show (s.data.drop (s.data.length - n)).length = _
  rw [List.length_drop]

/-- The truncation safeguard never returns more than the ceiling. -/
theorem truncOf_length (s : String) :
    (truncOf s).length ≤ MAX_PROMPT_CHARS := by
  unfold truncOf
  by_cases h : MAX_PROMPT_CHARS < s.length
  · rw [if_pos h, pyTail_length]
    omega
  · rw [if_neg h]
    omega

/-- On an over-long string the safeguard keeps exactly the trailing
`MAX_PROMPT_CHARS` characters. -/
theorem truncOf_over (s : String) (h : MAX_PROMPT_CHARS < s.length) :
    (truncOf s).data = s.data.drop (s.data.length - MAX_PROMPT_CHARS)
      ∧ (truncOf s).length = MAX_PROMPT_CHARS := by
  have hd : MAX_PROMPT_CHARS < s.data.length := h
  constructor
  · unfold truncOf
    rw [if_pos h, pyTail_data]
  · unfold truncOf
    rw [if_pos h, pyTail_length]
    omega

set_option maxRecDepth 10000 in
/-- Claim C9: the assembled user message consists of the sections in the
fixed order task, financial metrics, transcript themes, market context,
closing instruction; the string handed to the model is at most
`MAX_PROMPT_CHARS` characters; and when the assembled block exceeds that
bound, the message is exactly the block's trailing `MAX_PROMPT_CHARS`
characters. -/
theorem claim_C9_prompt_assembly (q : String) (fin themes market : Json) :
    String.intercalate "\n" (userParts q fin themes market)
        = "Task: " ++ q
          ++ "\n\nStructured financial metrics extracted from quarterly financial statements (already parsed for you):\n"
          ++ pyDumps fin
          ++ "\n\nKey management commentary snippets from earnings call transcripts, grouped by analytical theme:\n"
          ++ pyDumps themes
          ++ "\n\nOptional market context for the TCS stock (can be empty):\n"
          ++ pyDumps market
          ++ "\n\nNow, using ONLY the information above and following the schema from the system prompt, produce the final JSON forecast object."
      ∧ (finalPrompt q fin themes market).length ≤ MAX_PROMPT_CHARS
      ∧ (MAX_PROMPT_CHARS
            < (String.intercalate "\n" (userParts q fin themes market)).length →
          (finalPrompt q fin themes market).data
              = (String.intercalate "\n"
                  (userParts q fin themes market)).data.drop
                  ((String.intercalate "\n"
                    (userParts q fin themes market)).data.length
                    - MAX_PROMPT_CHARS)
            ∧ (finalPrompt q fin themes market).length = MAX_PROMPT_CHARS) := by
  refine ⟨?_, truncOf_length _, fun hlen => truncOf_over _ hlen⟩
  rw [userParts, intercalate_spec]
  apply String.ext
  simp only [joinParts, data_append, List.append_assoc, List.cons_append,
    List.nil_append]

/-- Claim C6: the theme compressor passes any non-dict input through
unchanged; on a mapping from topics to lists of passage strings it keeps,
per topic and in input order, only the first `n` passages truncated to `m`
characters each, and a topic appears in the output exactly when its filtered
passage list is non-empty (defaults: `n = 2`, `m = 400`). -/
theorem claim_C6_compress_themes (kvs : List (String × List String))
    (n m : Nat) (t : Json) (hn : 0 < n) (ht : t.isObj = false) :
    compressThemes
        (Json.obj (kvs.map (fun p => (p.1, Json.arr (p.2.map Json.str))))) n m
      = Json.obj ((kvs.filter (fun p => !p.2.isEmpty)).map
          (fun p => (p.1,
            Json.arr ((p.2.take n).map (fun s => Json.str (pyTake m s))))))
    ∧ compressThemes t n m = t := by
  constructor
  · induction kvs with
    | nil => rfl
    | cons p rest ih =>
      simp only [compressThemes, List.map_cons, List.filterMap_cons] at ih ⊢
      rw [← List.map_take, List.filterMap_map]
      have hfm :
          List.filterMap
            ((fun sn => match sn with
              | Json.str s => some (Json.str (pyTake m s))
              | _ => none) ∘ Json.str) (p.2.take n)
          = List.map (fun s => Json.str (pyTake m s)) (p.2.take n) := by
        rw [show ((fun sn => match sn with
              | Json.str s => some (Json.str (pyTake m s))
              | _ => none) ∘ Json.str)
            = some ∘ (fun s => Json.str (pyTake m s)) from rfl,
          List.filterMap_eq_map]
      rw [hfm]
      by_cases hp : p.2 = []
      · simp only [hp, List.take_nil, List.map_nil, List.isEmpty_nil,
          if_true, List.filter_cons, Bool.not_true, Bool.false_eq_true,
          if_false]
        simp only [Json.obj.injEq] at ih ⊢
        exact ih
      · have htake : p.2.take n ≠ [] := by
          rw [Ne, List.take_eq_nil_iff]
          push_neg
          exact ⟨by omega, hp⟩
        have hne : (List.map (fun s => Json.str (pyTake m s)) (p.2.take n)).isEmpty
            = false := by
          rw [Bool.eq_false_iff, Ne, List.isEmpty_eq_true, List.map_eq_nil_iff]
          exact htake
        rw [hne]
        simp only [Bool.false_eq_true, if_false, List.filter_cons,
          Bool.not_eq_true']
        rw [if_pos (by rw [Bool.eq_false_iff, Ne, List.isEmpty_eq_true]; exact hp)]
        simp only [List.map_cons, Json.obj.injEq, List.cons.injEq, true_and]
        simp only [Json.obj.injEq] at ih
        exact ih
  · cases t with
    | obj kvs2 => simp [Json.isObj] at ht
    | null => rfl
    | bool b => rfl
    | num s => rfl
    | str s => rfl
    | arr l => rfl

/-- Witness for C6 at a concrete theme map with an over-long topic, an empty
topic, and a non-dict sentinel. -/
theorem claim_C6_witness :
    compressThemes
        (Json.obj ([("growth", ["a", "b", "c"]), ("risk", [])].map
          (fun p => (p.1, Json.arr (p.2.map Json.str))))) 2 400
      = Json.obj (([("growth", ["a", "b", "c"]), ("risk", [])].filter
          (fun p => !p.2.isEmpty)).map
          (fun p => (p.1,
            Json.arr ((p.2.take 2).map (fun s => Json.str (pyTake 400 s))))))
    ∧ compressThemes (Json.arr [Json.str "No transcript provided by user."])
        2 400 = Json.arr [Json.str "No transcript provided by user."] :=
  claim_C6_compress_themes [("growth", ["a", "b", "c"]), ("risk", [])] 2 400
    (Json.arr [Json.str "No transcript provided by user."])
    (by decide) (by rfl)

/-!  Python-strip lemmas, used to analyse the loose JSON recovery. -/

/-- The head surviving a `dropWhile` fails the predicate. -/
theorem dropWhile_head_false {α : Type} (p : α → Bool) (l : List α) {c : α}
    {r : List α} (h : l.dropWhile p = c :: r) : p c = false := by
  induction l with
  | nil => simp at h
  | cons a as ih =>
    rw [List.dropWhile_cons] at h
    by_cases hp : p a = true
    · rw [if_pos hp] at h
      exact ih h
    · rw [if_neg hp] at h
      cases h
      exact Bool.eq_false_iff.mpr hp

/-- Dropping a prefix twice is the same as once. -/
theorem dropWhile_idem {α : Type} (p : α → Bool) (l : List α) :
    (l.dropWhile p).dropWhile p = l.dropWhile p := by
  cases h : l.dropWhile p with
  | nil => rfl
  | cons c r => simp [List.dropWhile_cons, dropWhile_head_false p l h]

/-- Left strip is idempotent. -/
theorem lstrip_idem (l : List Char) : lstrip (lstrip l) = lstrip l :=
  dropWhile_idem _ _

/-- Right strip is idempotent. -/
theorem rstrip_idem (l : List Char) : rstrip (rstrip l) = rstrip l := by
  unfold rstrip
  rw [List.reverse_reverse, dropWhile_idem]

/-- Right strip on a cons, by cases on whether the tail is all whitespace. -/
theorem rstrip_cons (a : Char) (x : List Char) :
    rstrip (a :: x) = if (x.reverse.dropWhile isPyWs).isEmpty
      then (if isPyWs a then [] else [a])
      else a :: rstrip x := by
  rw [rstrip, List.reverse_cons, List.dropWhile_append]
  by_cases he : (x.reverse.dropWhile isPyWs).isEmpty
  · rw [if_pos he, if_pos he]
    by_cases hws : isPyWs a = true
    · rw [if_pos hws, List.dropWhile_cons, if_pos hws]
      rfl
    · rw [if_neg hws, List.dropWhile_cons, if_neg hws]
      rfl
  · rw [if_neg he, if_neg he, List.reverse_append]
    rfl

/-- Left strip keeps a cons with a non-whitespace head. -/
theorem lstrip_cons_keep (a : Char) (x : List Char) (hws : ¬ isPyWs a = true) :
    lstrip (a :: x) = a :: x := by
  rw [lstrip, List.dropWhile_cons, if_neg hws]

/-- Left strip skips a whitespace head. -/
theorem lstrip_cons_skip (a : Char) (x : List Char) (hws : isPyWs a = true) :
    lstrip (a :: x) = lstrip x := by
  rw [lstrip, List.dropWhile_cons, if_pos hws]
  rfl

/-- The two one-sided strips commute. -/
theorem lstrip_rstrip_comm (l : List Char) :
    rstrip (lstrip l) = lstrip (rstrip l) := by
  induction l with
  | nil => rfl
  | cons a x ih =>
    by_cases he : (x.reverse.dropWhile isPyWs).isEmpty
    · have hall : lstrip x = [] := by
        rw [lstrip, List.dropWhile_eq_nil_iff]
        intro y hy
        exact List.dropWhile_eq_nil_iff.mp (List.isEmpty_iff.mp he) y
          (by simpa using hy)
      by_cases hws : isPyWs a = true
      · rw [lstrip_cons_skip a x hws, hall, rstrip_cons, if_pos he, if_pos hws]
        rfl
      · rw [lstrip_cons_keep a x hws, rstrip_cons, if_pos he, if_neg hws,
          lstrip_cons_keep a [] hws]
    · by_cases hws : isPyWs a = true
      · rw [lstrip_cons_skip a x hws, rstrip_cons, if_neg he,
          lstrip_cons_skip a (rstrip x) hws]
        exact ih
      · rw [lstrip_cons_keep a x hws, rstrip_cons, if_neg he,
          lstrip_cons_keep a (rstrip x) hws]

/-- Python strip is idempotent. -/
theorem pythonStrip_idem (l : List Char) :
    pythonStrip (pythonStrip l) = pythonStrip l := by
  unfold pythonStrip
  rw [lstrip_rstrip_comm, rstrip_idem, lstrip_idem]

/-- `json.loads` ignores an outer Python strip. -/
theorem jsonLoadsL_strip (l : List Char) :
    jsonLoadsL (pythonStrip l) = jsonLoadsL l := by
  unfold jsonLoadsL
  rw [pythonStrip_idem]

/-- Right strip drops a trailing whitespace character. -/
theorem rstrip_append_ws (x : List Char) (c : Char) (hc : isPyWs c = true) :
    rstrip (x ++ [c]) = rstrip x := by
  unfold rstrip
  simp only [List.reverse_append, List.reverse_cons, List.reverse_nil,
    List.nil_append, List.cons_append]
  rw [List.dropWhile_cons, if_pos hc]

/-- Right strip keeps a trailing non-whitespace character. -/
theorem rstrip_append_keep (x : List Char) (c : Char)
    (hc : ¬ isPyWs c = true) : rstrip (x ++ [c]) = x ++ [c] := by
  unfold rstrip
  simp only [List.reverse_append, List.reverse_cons, List.reverse_nil,
    List.nil_append, List.cons_append]
  rw [List.dropWhile_cons, if_neg hc, List.reverse_cons, List.reverse_reverse]

/-- Stripping a string padded with one newline on each side equals stripping
the string itself. -/
theorem pythonStrip_pad (x : List Char) :
    pythonStrip ('\n' :: (x ++ ['\n'])) = pythonStrip x := by
  unfold pythonStrip
  rw [show rstrip ('\n' :: (x ++ ['\n'])) = rstrip ('\n' :: x) from by
      rw [show ('\n' :: (x ++ ['\n'])) = ('\n' :: x) ++ ['\n'] from rfl]
      exact rstrip_append_ws _ _ (by decide),
    rstrip_cons]
  by_cases he : (x.reverse.dropWhile isPyWs).isEmpty
  · rw [if_pos he, if_pos (by decide)]
    have : rstrip x = [] := by
      unfold rstrip
      rw [List.isEmpty_iff.mp he]
      rfl
    rw [this]
  · rw [if_neg he, lstrip_cons_skip _ _ (by decide)]

/-!  Fence-regex lemmas: behaviour of the lazy group search on texts whose
payload contains no triple backtick. -/

/-- A fence start is determined by the first three characters alone. -/
theorem startsTriple_first3 (a b c : Char) (t : List Char) :
    startsTriple (a :: b :: c :: t)
      = (a == btChar && b == btChar && c == btChar) := rfl

/-- A list headed by a non-backtick never starts a fence. -/
theorem startsTriple_head_ne (c : Char) (w : List Char)
    (hc : (c == btChar) = false) : startsTriple (c :: w) = false := by
  match w with
  | [] => rfl
  | [b] => rfl
  | b :: d :: t =>
    rw [startsTriple_first3, hc]
    simp

/-- Appending the closing fence or just two backticks to a non-empty list
gives the same fence-start test. -/
theorem startsTriple_append_bt (y : List Char) (hy : y ≠ []) :
    startsTriple (y ++ [btChar, btChar, btChar])
      = startsTriple (y ++ [btChar, btChar]) := by
  match y with
  | [] => exact absurd rfl hy
  | [a] => simp [startsTriple_first3]
  | [a, b] => simp [startsTriple_first3]
  | a :: b :: c :: ys => simp [startsTriple_first3]

/-- Unfolding `hasTriple` on a cons. -/
theorem hasTriple_cons (c : Char) (cs : List Char) :
    hasTriple (c :: cs) = (startsTriple (c :: cs) || hasTriple cs) := rfl

/-- The lazy group stops exactly at an appended closing fence when no triple
backtick occurs earlier (including across the junction). -/
theorem lazyClose_close (x : List Char)
    (h : hasTriple (x ++ [btChar, btChar]) = false) :
    lazyClose (x ++ [btChar, btChar, btChar]) = some x := by
  induction x with
  | nil => rfl
  | cons a x' ih =>
    rw [List.cons_append, hasTriple_cons] at h
    have h1 := (Bool.or_eq_false_iff.mp h).1
    have h2 := (Bool.or_eq_false_iff.mp h).2
    rw [List.cons_append, lazyClose]
    rw [show a :: (x' ++ [btChar, btChar, btChar])
        = (a :: x') ++ [btChar, btChar, btChar] from rfl,
      startsTriple_append_bt (a :: x') (List.cons_ne_nil a x')]
    rw [show (a :: x') ++ [btChar, btChar] = a :: (x' ++ [btChar, btChar])
        from rfl, h1]
    simp only [Bool.false_eq_true, if_false, List.cons_append]
    rw [ih h2]
    rfl

/-- No triple backtick appears after appending the sentinel tail
newline-backtick-backtick to a fence-free list. -/
theorem hasTriple_append_sentinel (j : List Char)
    (hj : hasTriple j = false) :
    hasTriple (j ++ ['\n', btChar, btChar]) = false := by
  induction j with
  | nil => rfl
  | cons a j' ih =>
    rw [hasTriple_cons] at hj
    have h1 := (Bool.or_eq_false_iff.mp hj).1
    have h2 := (Bool.or_eq_false_iff.mp hj).2
    rw [List.cons_append, hasTriple_cons, ih h2, Bool.or_false]
    match j' with
    | [] =>
      rw [List.nil_append, startsTriple_first3]
      rw [show (('\n' : Char) == btChar) = false from by decide]
      simp
    | [b] =>
      rw [List.cons_append, List.nil_append, startsTriple_first3]
      rw [show (('\n' : Char) == btChar) = false from by decide]
      simp
    | b :: c :: rest =>
      rw [startsTriple_first3] at h1
      rw [List.cons_append, List.cons_append, startsTriple_first3]
      exact h1

/-- The padded payload between the fences is free of triple backticks, even
with the two junction backticks of the closing fence appended. -/
theorem hasTriple_pad (j : List Char) (hj : hasTriple j = false) :
    hasTriple (('\n' :: (j ++ ['\n'])) ++ [btChar, btChar]) = false := by
  rw [show ('\n' :: (j ++ ['\n'])) ++ [btChar, btChar]
      = '\n' :: (j ++ ['\n', btChar, btChar]) from by
    simp [List.append_assoc]]
  rw [hasTriple_cons, hasTriple_append_sentinel j hj, Bool.or_false]
  exact startsTriple_head_ne '\n' _ (by decide)

/-- A list headed by anything but a `j` does not carry the `json` tag. -/
theorem startsJsonCI_head_ne (c : Char) (w : List Char)
    (hc : (c == 'j' || c == 'J') = false) : startsJsonCI (c :: w) = false := by
  match w with
  | [] => rfl
  | [b] => rfl
  | [b, d] => rfl
  | b :: d :: e :: t =>
    rw [show startsJsonCI (c :: b :: d :: e :: t)
        = ((c == 'j' || c == 'J') && (b == 's' || b == 'S')
            && (d == 'o' || d == 'O') && (e == 'n' || e == 'N')) from rfl, hc]
    simp

/-- `json.loads` is unchanged by newline padding of its input. -/
theorem jsonLoadsL_pad (j : List Char) :
    jsonLoadsL ('\n' :: (j ++ ['\n'])) = jsonLoadsL j := by
  unfold jsonLoadsL
  rw [pythonStrip_pad]

/-- Loose parsing of a fence-wrapped payload with the `json` tag recovers
exactly the payload's own parse, provided the payload is fence-free. -/
theorem parseJsonLooseL_fenced_tag (j : List Char) (v : Json)
    (hf : hasTriple j = false) (hj : jsonLoadsL j = some v) :
    parseJsonLooseL (("```json\n".data ++ j) ++ "\n```".data) = some v := by
  have hd1 : ("```json\n" : String).data
      = btChar :: btChar :: btChar :: 'j' :: 's' :: 'o' :: 'n' :: '\n' :: [] := by
    decide
  have hd2 : ("\n```" : String).data
      = '\n' :: btChar :: btChar :: btChar :: [] := by decide
  rw [hd1, hd2]
  rw [show (((btChar :: btChar :: btChar :: 'j' :: 's' :: 'o' :: 'n' :: '\n' :: [])
        ++ j) ++ ('\n' :: btChar :: btChar :: btChar :: []))
      = btChar :: btChar :: btChar :: 'j' :: 's' :: 'o' :: 'n' :: '\n'
          :: (j ++ ('\n' :: btChar :: btChar :: btChar :: [])) from by
    simp [List.append_assoc]]
  have hstrip : pythonStrip (btChar :: btChar :: btChar :: 'j' :: 's' :: 'o'
        :: 'n' :: '\n' :: (j ++ ('\n' :: btChar :: btChar :: btChar :: [])))
      = btChar :: btChar :: btChar :: 'j' :: 's' :: 'o' :: 'n' :: '\n'
        :: (j ++ ('\n' :: btChar :: btChar :: btChar :: [])) := by
    show lstrip (rstrip _) = _
    rw [show btChar :: btChar :: btChar :: 'j' :: 's' :: 'o' :: 'n' :: '\n'
          :: (j ++ ('\n' :: btChar :: btChar :: btChar :: []))
        = (btChar :: btChar :: btChar :: 'j' :: 's' :: 'o' :: 'n' :: '\n'
            :: (j ++ ('\n' :: btChar :: btChar :: []))) ++ [btChar] from by
      simp [List.append_assoc]]
    rw [rstrip_append_keep _ _ (by decide)]
    rw [show (btChar :: btChar :: btChar :: 'j' :: 's' :: 'o' :: 'n' :: '\n'
          :: (j ++ ('\n' :: btChar :: btChar :: []))) ++ [btChar]
        = btChar :: ((btChar :: btChar :: 'j' :: 's' :: 'o' :: 'n' :: '\n'
            :: (j ++ ('\n' :: btChar :: btChar :: []))) ++ [btChar]) from rfl]
    rw [lstrip_cons_keep _ _ (by decide)]
  have hdrop : ('j' :: 's' :: 'o' :: 'n' :: '\n'
        :: (j ++ ('\n' :: btChar :: btChar :: btChar :: []))).drop 4
      = '\n' :: (j ++ ('\n' :: btChar :: btChar :: btChar :: [])) := rfl
  have hsj : startsJsonCI ('j' :: 's' :: 'o' :: 'n' :: '\n'
        :: (j ++ ('\n' :: btChar :: btChar :: btChar :: []))) = true := by
    rw [show startsJsonCI ('j' :: 's' :: 'o' :: 'n' :: '\n'
          :: (j ++ ('\n' :: btChar :: btChar :: btChar :: [])))
        = (('j' == 'j' || 'j' == 'J') && ('s' == 's' || 's' == 'S')
            && ('o' == 'o' || 'o' == 'O') && ('n' == 'n' || 'n' == 'N'))
        from rfl]
    decide
  have hlazy : lazyClose ('\n' :: (j ++ ('\n' :: btChar :: btChar :: btChar :: [])))
      = some ('\n' :: (j ++ ['\n'])) := by
    rw [show '\n' :: (j ++ ('\n' :: btChar :: btChar :: btChar :: []))
        = ('\n' :: (j ++ ['\n'])) ++ [btChar, btChar, btChar] from by
      simp [List.append_assoc]]
    exact lazyClose_close _ (hasTriple_pad j hf)
  have hmatch : matchFenceAt (btChar :: btChar :: btChar :: 'j' :: 's' :: 'o'
        :: 'n' :: '\n' :: (j ++ ('\n' :: btChar :: btChar :: btChar :: [])))
      = some ('\n' :: (j ++ ['\n'])) := by
    rw [matchFenceAt]
    rw [if_pos (by decide : (btChar == btChar && btChar == btChar
        && btChar == btChar) = true)]
    rw [if_pos hsj, hdrop, hlazy]
  have hfence : fenceSearch (btChar :: btChar :: btChar :: 'j' :: 's' :: 'o'
        :: 'n' :: '\n' :: (j ++ ('\n' :: btChar :: btChar :: btChar :: [])))
      = some ('\n' :: (j ++ ['\n'])) := by
    rw [fenceSearch, hmatch]
  have hload : jsonLoadsL (pythonStrip ('\n' :: (j ++ ['\n']))) = some v := by
    rw [jsonLoadsL_strip, jsonLoadsL_pad]
    exact hj
  simp only [parseJsonLooseL, hstrip, hfence, hload]

/-- Loose parsing of a fence-wrapped payload without the language tag
likewise recovers exactly the payload's own parse. -/
theorem parseJsonLooseL_fenced_untag (j : List Char) (v : Json)
    (hf : hasTriple j = false) (hj : jsonLoadsL j = some v) :
    parseJsonLooseL (("```\n".data ++ j) ++ "\n```".data) = some v := by
  have hd1 : ("```\n" : String).data
      = btChar :: btChar :: btChar :: '\n' :: [] := by decide
  have hd2 : ("\n```" : String).data
      = '\n' :: btChar :: btChar :: btChar :: [] := by decide
  rw [hd1, hd2]
  rw [show (((btChar :: btChar :: btChar :: '\n' :: []) ++ j)
        ++ ('\n' :: btChar :: btChar :: btChar :: []))
      = btChar :: btChar :: btChar :: '\n'
          :: (j ++ ('\n' :: btChar :: btChar :: btChar :: [])) from by
    simp [List.append_assoc]]
  have hstrip : pythonStrip (btChar :: btChar :: btChar :: '\n'
        :: (j ++ ('\n' :: btChar :: btChar :: btChar :: [])))
      = btChar :: btChar :: btChar :: '\n'
        :: (j ++ ('\n' :: btChar :: btChar :: btChar :: [])) := by
    show lstrip (rstrip _) = _
    rw [show btChar :: btChar :: btChar :: '\n'
          :: (j ++ ('\n' :: btChar :: btChar :: btChar :: []))
        = (btChar :: btChar :: btChar :: '\n'
            :: (j ++ ('\n' :: btChar :: btChar :: []))) ++ [btChar] from by
      simp [List.append_assoc]]
    rw [rstrip_append_keep _ _ (by decide)]
    rw [show (btChar :: btChar :: btChar :: '\n'
          :: (j ++ ('\n' :: btChar :: btChar :: []))) ++ [btChar]
        = btChar :: ((btChar :: btChar :: '\n'
            :: (j ++ ('\n' :: btChar :: btChar :: []))) ++ [btChar]) from rfl]
    rw [lstrip_cons_keep _ _ (by decide)]
  have hlazy : lazyClose ('\n' :: (j ++ ('\n' :: btChar :: btChar :: btChar :: [])))
      = some ('\n' :: (j ++ ['\n'])) := by
    rw [show '\n' :: (j ++ ('\n' :: btChar :: btChar :: btChar :: []))
        = ('\n' :: (j ++ ['\n'])) ++ [btChar, btChar, btChar] from by
      simp [List.append_assoc]]
    exact lazyClose_close _ (hasTriple_pad j hf)
  have hmatch : matchFenceAt (btChar :: btChar :: btChar :: '\n'
        :: (j ++ ('\n' :: btChar :: btChar :: btChar :: [])))
      = some ('\n' :: (j ++ ['\n'])) := by
    rw [matchFenceAt]
    rw [if_pos (by decide : (btChar == btChar && btChar == btChar
        && btChar == btChar) = true)]
    rw [if_neg (by
      rw [startsJsonCI_head_ne '\n' _ (by decide)]
      exact Bool.false_ne_true)]
    exact hlazy
  have hfence : fenceSearch (btChar :: btChar :: btChar :: '\n'
        :: (j ++ ('\n' :: btChar :: btChar :: btChar :: [])))
      = some ('\n' :: (j ++ ['\n'])) := by
    rw [fenceSearch, hmatch]
  have hload : jsonLoadsL (pythonStrip ('\n' :: (j ++ ['\n']))) = some v := by
    rw [jsonLoadsL_strip, jsonLoadsL_pad]
    exact hj
  simp only [parseJsonLooseL, hstrip, hfence, hload]

/-- Claim C5, counterexample: wrapping a JSON object that itself contains a
fence marker in its string value breaks the loose parser — the lazy fence
group closes inside the string, so every strategy fails — whereas the
standard parser on the unwrapped text succeeds. -/
theorem claim_C5_counterexample :
    jsonLoads jsonWithFence = some (Json.obj [("a", Json.str "```")])
      ∧ parseJsonLoose ("```json\n" ++ jsonWithFence ++ "\n```") = none := by
  exact ⟨rfl, rfl⟩

/-- Claim C5 (amended): for every string that parses as JSON and does not
itself contain a triple-backtick fence marker, the loose parser applied to
the string wrapped in a fenced code block — with or without the `json`
language tag — returns the identical value the standard JSON parser gives
on the unwrapped string. -/
theorem claim_C5_fence_recovery (j : String) (v : Json)
    (hf : hasTriple j.data = false) (hj : jsonLoads j = some v) :
    parseJsonLoose ("```json\n" ++ j ++ "\n```") = some v
      ∧ parseJsonLoose ("```\n" ++ j ++ "\n```") = some v := by
  constructor
  · show parseJsonLooseL ("```json\n" ++ j ++ "\n```").data = some v
    rw [data_append, data_append]
    exact parseJsonLooseL_fenced_tag j.data v hf hj
  · show parseJsonLooseL ("```\n" ++ j ++ "\n```").data = some v
    rw [data_append, data_append]
    exact parseJsonLooseL_fenced_untag j.data v hf hj

/-- Witness for C5 at a concrete one-key object. -/
theorem claim_C5_witness :
    parseJsonLoose ("```json\n" ++ "\x7b\"a\": 1\x7d" ++ "\n```")
        = some (Json.obj [("a", Json.num "1")])
      ∧ parseJsonLoose ("```\n" ++ "\x7b\"a\": 1\x7d" ++ "\n```")
        = some (Json.obj [("a", Json.num "1")]) :=
  claim_C5_fence_recovery "\x7b\"a\": 1\x7d" (Json.obj [("a", Json.num "1")])
    (by decide) (by rfl)

/-- Witness for C9: the ceiling holds at concrete null sections. -/
theorem claim_C9_witness :
    (finalPrompt "q" Json.null Json.null Json.null).length
      ≤ MAX_PROMPT_CHARS :=
  (claim_C9_prompt_assembly "q" Json.null Json.null Json.null).2.1
